import Mathlib

/-!
Verification of the training-loop controller of `run_main.py` (Time-LLM-Cryptex).

A batch tensor of shape (time, channels) for one batch element is modelled as
`List (List ℚ)`: the outer list indexes time steps, each inner list is the
channel vector at that step.  Python slicing with a possibly negative start
index is modelled exactly (`xs[i:]`, including the `xs[-0:] = xs` corner case).
-/

namespace RunMain

/-- Python slice `xs[i:]` for an integer start index `i`: a nonnegative start
drops `i` elements from the front, a negative start keeps the last `-i`
elements (all of them when `-i` exceeds the length).  Note `(-0 : Int) ≥ 0`,
so `xs[-0:]` is the whole list, as in Python. -/
def pySliceFrom (i : Int) (xs : List α) : List α :=
  if 0 ≤ i then xs.drop i.toNat else xs.drop (xs.length - (-i).toNat)

/-- Python slice `xs[:n]` for a nonnegative stop index. -/
def pySliceTo (n : Nat) (xs : List α) : List α := xs.take n

/-- Model of `torch.zeros_like` on a (time, channels) tensor slice. -/
def zeros_like (t : List (List ℚ)) : List (List ℚ) :=
  t.map (fun row => row.map (fun _ => (0 : ℚ)))

/-- Decoder-input construction of `run_main.py` lines 196-197:
`dec_inp = torch.zeros_like(batch_y[:, -pred_len:, :])` followed by
`dec_inp = torch.cat([batch_y[:, :label_len, :], dec_inp], dim=1)`,
for a single batch element. -/
def dec_inp (label_len pred_len : Nat) (batch_y : List (List ℚ)) : List (List ℚ) :=
  let z := zeros_like (pySliceFrom (-(pred_len : Int)) batch_y)
  pySliceTo label_len batch_y ++ z

/-- Channel start index `f_dim = -1 if args.features == 'MS' else 0` (lines 206 and 213). -/
def f_dim (features : String) : Int :=
  if features = "MS" then -1 else 0

/-- The slice `t[:, -pred_len:, f_dim:]` applied to the model output and to the
target before they reach the loss function (lines 207 and 214), for a single
batch element. -/
def lossSlice (features : String) (pred_len : Nat) (t : List (List ℚ)) : List (List ℚ) :=
  (pySliceFrom (-(pred_len : Int)) t).map (fun row => pySliceFrom (f_dim features) row)

lemma pySliceFrom_neg_of_pos (p : Nat) (hp : 0 < p) (xs : List α) :
    pySliceFrom (-(p : Int)) xs = xs.drop (xs.length - p) := by
  unfold pySliceFrom
  rw [if_neg, neg_neg, Int.toNat_natCast]
  omega

lemma zeros_like_mem (t : List (List ℚ)) :
    ∀ row ∈ zeros_like t, ∀ v ∈ row, v = 0 := by
  intro row hrow v hv
  simp only [zeros_like, List.mem_map] at hrow
  obtain ⟨r, _, rfl⟩ := hrow
  simp only [List.mem_map] at hv
  obtain ⟨x, _, rfl⟩ := hv
  rfl

lemma zeros_like_length (t : List (List ℚ)) : (zeros_like t).length = t.length := by
  simp [zeros_like]

/-- C3: for a training batch whose target `y` has `label_len + pred_len` time
steps (with a positive prediction length), the decoder input passed to the
model has its first `label_len` time steps equal to the first `label_len` time
steps of `y`, it has exactly `label_len + pred_len` time steps, and every
entry of its last `pred_len` time steps is zero. -/
theorem dec_inp_spec (label_len pred_len : Nat) (y : List (List ℚ))
    (hp : 0 < pred_len) (hy : y.length = label_len + pred_len) :
    (dec_inp label_len pred_len y).take label_len = y.take label_len ∧
    (dec_inp label_len pred_len y).length = label_len + pred_len ∧
    ∀ row ∈ (dec_inp label_len pred_len y).drop label_len, ∀ v ∈ row, v = 0 := by
  have hlab : label_len ≤ y.length := by omega
  have hzlen : (zeros_like (pySliceFrom (-(pred_len : Int)) y)).length = pred_len := by
    rw [pySliceFrom_neg_of_pos pred_len hp y, zeros_like_length, List.length_drop]
    omega
  have htake : (pySliceTo label_len y).length = label_len := by
    simp [pySliceTo, List.length_take, hlab]
  refine ⟨?_, ?_, ?_⟩
  · unfold dec_inp
    rw [List.take_append_of_le_length (by rw [htake]), pySliceTo]
    rw [List.take_take, min_self]
  · unfold dec_inp
    rw [List.length_append, htake, hzlen]
  · intro row hrow v hv
    unfold dec_inp at hrow
    rw [List.drop_append_of_le_length (by rw [htake])] at hrow
    rw [List.drop_eq_nil_of_le (by rw [htake]), List.nil_append] at hrow
    exact zeros_like_mem _ row hrow v hv

/-- Witness for C3 at a concrete batch. -/
theorem dec_inp_spec_witness :
    (dec_inp 2 1 [[1, 2], [3, 4], [5, 6]]).take 2 = [[(1 : ℚ), 2], [3, 4]] ∧
    (dec_inp 2 1 [[1, 2], [3, 4], [5, 6]]).length = 3 ∧
    ∀ row ∈ (dec_inp 2 1 [[(1 : ℚ), 2], [3, 4], [5, 6]]).drop 2, ∀ v ∈ row, v = 0 := by
  have h := dec_inp_spec 2 1 [[1, 2], [3, 4], [5, 6]] (by decide) (by decide)
  refine ⟨?_, h.2.1, h.2.2⟩
  rw [h.1]
  decide

lemma pySliceFrom_zero (xs : List α) : pySliceFrom 0 xs = xs := by
  simp [pySliceFrom]

lemma drop_length_sub_one (l : List α) : l.drop (l.length - 1) = l.getLast?.toList := by
  induction l with
  | nil => rfl
  | cons a t ih =>
    cases t with
    | nil => rfl
    | cons b t' =>
      rw [List.getLast?_cons_cons]
      have h1 : (a :: b :: t').length - 1 = t'.length + 1 := by simp
      rw [h1, List.drop_succ_cons]
      have h2 : (b :: t').length - 1 = t'.length := by simp
      rw [h2] at ih
      exact ih

lemma pySliceFrom_neg_one (xs : List α) : pySliceFrom (-1) xs = xs.getLast?.toList := by
  have h : (-1 : Int) = -((1 : Nat) : Int) := by norm_num
  rw [h, pySliceFrom_neg_of_pos 1 (by norm_num), drop_length_sub_one]

/-- C4: the slice of model output / target passed to the loss function covers
exactly the last `pred_len` time steps of the tensor; when `features = 'MS'`
each scored time step keeps only the last channel, and for every other
features setting all channels are kept. -/
theorem lossSlice_spec (features : String) (pred_len : Nat) (t : List (List ℚ))
    (hp : 0 < pred_len) (hl : pred_len ≤ t.length) :
    (lossSlice features pred_len t).length = pred_len ∧
    (features ≠ "MS" → lossSlice features pred_len t = t.drop (t.length - pred_len)) ∧
    (features = "MS" → lossSlice features pred_len t =
      (t.drop (t.length - pred_len)).map (fun row => row.getLast?.toList)) := by
  have hslice : pySliceFrom (-(pred_len : Int)) t = t.drop (t.length - pred_len) :=
    pySliceFrom_neg_of_pos pred_len hp t
  refine ⟨?_, ?_, ?_⟩
  · unfold lossSlice
    rw [hslice]
    simp only [List.length_map, List.length_drop]
    omega
  · intro hms
    unfold lossSlice
    rw [hslice]
    have hf : f_dim features = 0 := by simp [f_dim, hms]
    rw [hf]
    simp [pySliceFrom_zero]
  · intro hms
    unfold lossSlice
    rw [hslice]
    have hf : f_dim features = -1 := by simp [f_dim, hms]
    rw [hf]
    simp only [pySliceFrom_neg_one]

/-- Witness for C4 at concrete tensors, in both the `'MS'` and the `'M'`
feature settings. -/
theorem lossSlice_spec_witness :
    (lossSlice "MS" 2 [[1, 2], [3, 4], [5, 6]] =
      [[(4 : ℚ)], [6]]) ∧
    (lossSlice "M" 2 [[1, 2], [3, 4], [5, 6]] =
      [[(3 : ℚ), 4], [5, 6]]) := by
  have hms := lossSlice_spec "MS" 2 [[(1 : ℚ), 2], [3, 4], [5, 6]] (by decide) (by decide)
  have hm := lossSlice_spec "M" 2 [[(1 : ℚ), 2], [3, 4], [5, 6]] (by decide) (by decide)
  constructor
  · rw [hms.2.2 rfl]
    decide
  · rw [hm.2.1 (by decide)]
    decide

/-- The kind of an entry in a model's state mapping: an `nn.Parameter`
carrying its `requires_grad` flag, or a persistent (non-parameter) buffer. -/
inductive EntryKind where
  | param (requiresGrad : Bool)
  | buffer
deriving DecidableEq, Repr

/-- One named entry of a model: its name, its current (abstracted scalar)
tensor value, and whether it is a parameter or a buffer. -/
structure StateEntry where
  name : String
  value : ℚ
  kind : EntryKind
deriving DecidableEq, Repr

/-- State mapping `model.state_dict()`: the name and current value of every entry. -/
def state_dict (model : List StateEntry) : List (String × ℚ) :=
  model.map (fun e => (e.name, e.value))

/-- Lookup `model.get_parameter(k)`: the `requires_grad` flag of the parameter named
`k`; raises (`Except.error`) when `k` does not resolve to an `nn.Parameter` —
in particular when it names a buffer, as torch's `get_parameter` does. -/
def get_parameter (model : List StateEntry) (k : String) : Except String Bool :=
  match model.find? (fun e => e.name == k) with
  | some e =>
    match e.kind with
    | .param rg => .ok rg
    | .buffer => .error (k ++ " is not an nn.Parameter")
  | none => .error ("no attribute " ++ k)

/-- The dict comprehension of lines 285-288: walk the state-dict items in
order, keep an item when its parameter has `requires_grad = true`, and
propagate the exception that `get_parameter` raises on a non-parameter key. -/
def filterTrainableItems (model : List StateEntry) :
    List (String × ℚ) → Except String (List (String × ℚ))
  | [] => Except.ok []
  | kv :: rest =>
    match get_parameter model kv.1 with
    | .error msg => .error msg
    | .ok rg =>
      match filterTrainableItems model rest with
      | .error msg => .error msg
      | .ok out => .ok (if rg then kv :: out else out)

/-- The filtered state mapping handed to the artifact sink (lines 285-290). -/
def export_state_dict (model : List StateEntry) : Except String (List (String × ℚ)) :=
  filterTrainableItems model (state_dict model)

/-- The `requires_grad` flag a key resolves to, `false` when it resolves to
nothing (only used to phrase the success case of the filter). -/
def paramGrad (model : List StateEntry) (k : String) : Bool :=
  match get_parameter model k with
  | .ok rg => rg
  | .error _ => false

lemma find?_name_eq_of_nodup (model : List StateEntry) (e : StateEntry)
    (hnd : (model.map StateEntry.name).Nodup) (he : e ∈ model) :
    model.find? (fun x => x.name == e.name) = some e := by
  induction model with
  | nil => cases he
  | cons a rest ih =>
    rw [List.map_cons, List.nodup_cons] at hnd
    rcases List.mem_cons.mp he with rfl | hmem
    · rw [List.find?_cons_of_pos]
      simp
    · have hne : a.name ≠ e.name := by
        intro hcontra
        exact hnd.1 (hcontra ▸ List.mem_map_of_mem StateEntry.name hmem)
      rw [List.find?_cons_of_neg]
      · exact ih hnd.2 hmem
      · simp [hne]

lemma get_parameter_of_kind (model : List StateEntry) (e : StateEntry) (rg : Bool)
    (hnd : (model.map StateEntry.name).Nodup) (he : e ∈ model)
    (hk : e.kind = EntryKind.param rg) :
    get_parameter model e.name = Except.ok rg := by
  obtain ⟨nm, val, kd⟩ := e
  subst hk
  unfold get_parameter
  rw [find?_name_eq_of_nodup model ⟨nm, val, EntryKind.param rg⟩ hnd he]

lemma get_parameter_of_buffer (model : List StateEntry) (e : StateEntry)
    (hnd : (model.map StateEntry.name).Nodup) (he : e ∈ model)
    (hk : e.kind = EntryKind.buffer) :
    get_parameter model e.name = Except.error (e.name ++ " is not an nn.Parameter") := by
  obtain ⟨nm, val, kd⟩ := e
  subst hk
  unfold get_parameter
  rw [find?_name_eq_of_nodup model ⟨nm, val, EntryKind.buffer⟩ hnd he]

lemma paramGrad_of_kind (model : List StateEntry) (e : StateEntry) (rg : Bool)
    (hnd : (model.map StateEntry.name).Nodup) (he : e ∈ model)
    (hk : e.kind = EntryKind.param rg) :
    paramGrad model e.name = rg := by
  unfold paramGrad
  rw [get_parameter_of_kind model e rg hnd he hk]

lemma paramGrad_of_buffer (model : List StateEntry) (e : StateEntry)
    (hnd : (model.map StateEntry.name).Nodup) (he : e ∈ model)
    (hk : e.kind = EntryKind.buffer) :
    paramGrad model e.name = false := by
  unfold paramGrad
  rw [get_parameter_of_buffer model e hnd he hk]

lemma filterTrainableItems_ok (model : List StateEntry) (items : List (String × ℚ))
    (h : ∀ kv ∈ items, ∃ rg, get_parameter model kv.1 = Except.ok rg) :
    filterTrainableItems model items =
      Except.ok (items.filter (fun kv => paramGrad model kv.1)) := by
  induction items with
  | nil => rfl
  | cons kv rest ih =>
    obtain ⟨rg, hrg⟩ := h kv (List.mem_cons_self kv rest)
    have hrest := ih (fun kv' hkv' => h kv' (List.mem_cons_of_mem kv hkv'))
    have hpg : paramGrad model kv.1 = rg := by
      unfold paramGrad
      rw [hrg]
    simp only [filterTrainableItems, hrg, hrest, List.filter_cons, hpg]

lemma filterTrainableItems_error (model : List StateEntry)
    (items : List (String × ℚ)) (kv : String × ℚ) (hkv : kv ∈ items)
    (herr : ∀ rg, get_parameter model kv.1 ≠ Except.ok rg) :
    ∃ msg, filterTrainableItems model items = Except.error msg := by
  induction items with
  | nil => cases hkv
  | cons a rest ih =>
    cases hga : get_parameter model a.1 with
    | error msg => exact ⟨msg, by simp only [filterTrainableItems, hga]⟩
    | ok rg =>
      rcases List.mem_cons.mp hkv with rfl | hmem
      · exact absurd hga (herr rg)
      · obtain ⟨msg, hmsg⟩ := ih hmem
        exact ⟨msg, by simp only [filterTrainableItems, hga, hmsg]⟩

lemma state_dict_keys_ok (model : List StateEntry)
    (hnd : (model.map StateEntry.name).Nodup)
    (hall : ∀ e ∈ model, e.kind ≠ EntryKind.buffer) :
    ∀ kv ∈ state_dict model, ∃ rg, get_parameter model kv.1 = Except.ok rg := by
  intro kv hkv
  simp only [state_dict, List.mem_map] at hkv
  obtain ⟨e, he, rfl⟩ := hkv
  cases hk : e.kind with
  | param rg => exact ⟨rg, get_parameter_of_kind model e rg hnd he hk⟩
  | buffer => exact absurd hk (hall e he)

/-- C5: for a model whose state-dict entries are all parameters (a mix of
trainable and frozen ones, with distinct names), the export filter succeeds
and the exported mapping contains a key-value pair exactly when the model has
a parameter of that name with `requires_grad = true`, with the pair's value
equal to the live model's value at export time; frozen-parameter keys are
absent. -/
theorem export_state_dict_trainable_only (model : List StateEntry)
    (hnd : (model.map StateEntry.name).Nodup)
    (hall : ∀ e ∈ model, e.kind ≠ EntryKind.buffer) :
    ∃ out, export_state_dict model = Except.ok out ∧
      ∀ k v, (k, v) ∈ out ↔
        ∃ e ∈ model, e.name = k ∧ e.value = v ∧ e.kind = EntryKind.param true := by
  refine ⟨(state_dict model).filter (fun kv => paramGrad model kv.1), ?_, ?_⟩
  · exact filterTrainableItems_ok model _ (state_dict_keys_ok model hnd hall)
  · intro k v
    rw [List.mem_filter]
    constructor
    · rintro ⟨hmem, hgrad⟩
      simp only [state_dict, List.mem_map] at hmem
      obtain ⟨e, he, heq⟩ := hmem
      obtain ⟨rfl, rfl⟩ : e.name = k ∧ e.value = v := by
        rw [Prod.mk.injEq] at heq
        exact heq
      refine ⟨e, he, rfl, rfl, ?_⟩
      cases hk : e.kind with
      | param rg =>
        rw [paramGrad_of_kind model e rg hnd he hk] at hgrad
        subst hgrad
        rfl
      | buffer =>
        rw [paramGrad_of_buffer model e hnd he hk] at hgrad
        cases hgrad
    · rintro ⟨e, he, rfl, rfl, hkind⟩
      exact ⟨List.mem_map_of_mem _ he, paramGrad_of_kind model e true hnd he hkind⟩

/-- Witness for C5 at a concrete two-parameter model (one trainable, one
frozen). -/
theorem export_state_dict_trainable_only_witness :
    export_state_dict
        [⟨"head.weight", 3, EntryKind.param true⟩,
         ⟨"llm.frozen", 5, EntryKind.param false⟩] =
      Except.ok [("head.weight", 3)] ∧
    ∃ out, export_state_dict
        [⟨"head.weight", 3, EntryKind.param true⟩,
         ⟨"llm.frozen", 5, EntryKind.param false⟩] = Except.ok out ∧
      ∀ k v, (k, v) ∈ out ↔
        ∃ e ∈ [⟨"head.weight", 3, EntryKind.param true⟩,
               ⟨"llm.frozen", (5 : ℚ), EntryKind.param false⟩],
          StateEntry.name e = k ∧ StateEntry.value e = v ∧
          StateEntry.kind e = EntryKind.param true := by
  constructor
  · rfl
  · exact export_state_dict_trainable_only _ (by decide) (by decide)

/-- C10: with distinct entry names, the export filter completes exactly when
every state-dict key names a parameter; as soon as the state dict contains a
non-parameter entry (e.g. a persistent buffer), the export raises instead of
producing a checkpoint. -/
theorem export_state_dict_ok_iff_no_buffer (model : List StateEntry)
    (hnd : (model.map StateEntry.name).Nodup) :
    (∃ out, export_state_dict model = Except.ok out) ↔
      ∀ e ∈ model, e.kind ≠ EntryKind.buffer := by
  constructor
  · rintro ⟨out, hout⟩ e he hbuf
    have herr : ∀ rg, get_parameter model e.name ≠ Except.ok rg := by
      intro rg
      rw [get_parameter_of_buffer model e hnd he hbuf]
      simp
    obtain ⟨msg, hmsg⟩ := filterTrainableItems_error model (state_dict model)
      (e.name, e.value) (List.mem_map_of_mem _ he) herr
    rw [export_state_dict, hmsg] at hout
    cases hout
  · intro hall
    exact ⟨_, filterTrainableItems_ok model _ (state_dict_keys_ok model hnd hall)⟩

/-- Witness for C10: a model with a buffer entry makes the export raise. -/
theorem export_state_dict_buffer_raises_witness :
    ¬ ∃ out, export_state_dict
        [⟨"head.weight", 3, EntryKind.param true⟩,
         ⟨"bn.running_mean", 7, EntryKind.buffer⟩] = Except.ok out := by
  intro hex
  have h := (export_state_dict_ok_iff_no_buffer
      [⟨"head.weight", 3, EntryKind.param true⟩,
       ⟨"bn.running_mean", 7, EntryKind.buffer⟩] (by decide)).mp hex
  exact h ⟨"bn.running_mean", 7, EntryKind.buffer⟩ (by decide) rfl

/-- A process of the distributed group, identified by its machine (node)
index and its rank local to that machine. -/
structure Proc where
  node : Nat
  localRank : Nat
deriving DecidableEq, Repr

/-- All processes of a distributed group of `numNodes` machines running
`procsPerNode` processes each. -/
def processes (numNodes procsPerNode : Nat) : List Proc :=
  (List.range numNodes).flatMap
    (fun n => (List.range procsPerNode).map (fun r => Proc.mk n r))

/-- Predicate `accelerator.is_main_process` (accelerate semantics): true on
the single process of global rank 0. -/
def is_main_process (p : Proc) : Bool := p.node == 0 && p.localRank == 0

/-- Predicate `accelerator.is_local_main_process` (accelerate semantics):
true on the process of local rank 0 of each machine — one process per
machine, not one per group. -/
def is_local_main_process (p : Proc) : Bool := p.localRank == 0

/-- The gate guarding `mlflow.log_metrics` (line 248). -/
def metricExportGate : Proc → Bool := is_local_main_process

/-- The gate guarding the checkpoint / scaler artifact export (line 280). -/
def artifactExportGate : Proc → Bool := is_local_main_process

/-- Number of processes of the group that perform the metric export. -/
def metricWriterCount (numNodes procsPerNode : Nat) : Nat :=
  ((processes numNodes procsPerNode).filter metricExportGate).length

/-- Number of processes of the group that perform the artifact export. -/
def artifactWriterCount (numNodes procsPerNode : Nat) : Nat :=
  ((processes numNodes procsPerNode).filter artifactExportGate).length

lemma node_block_filter (n pp : Nat) (hp : 0 < pp) :
    ((List.range pp).map (fun r => Proc.mk n r)).filter is_local_main_process =
      [Proc.mk n 0] := by
  induction pp with
  | zero => cases hp
  | succ k ih =>
    rw [List.range_succ, List.map_append, List.filter_append]
    rcases Nat.eq_zero_or_pos k with rfl | hk
    · rfl
    · rw [ih hk]
      have hkn : is_local_main_process (Proc.mk n k) = false := by
        simp [is_local_main_process]
        omega
      simp [List.filter_cons, hkn]

lemma processes_filter_localMain (numNodes pp : Nat) (hp : 0 < pp) :
    (processes numNodes pp).filter is_local_main_process =
      (List.range numNodes).map (fun n => Proc.mk n 0) := by
  induction numNodes with
  | zero => rfl
  | succ n ih =>
    unfold processes at ih ⊢
    rw [List.range_succ, List.flatMap_append, List.filter_append, ih,
      List.map_append]
    congr 1
    have : ([n] : List Nat).flatMap
        (fun m => (List.range pp).map (fun r => Proc.mk m r)) =
        (List.range pp).map (fun r => Proc.mk n r) := by
      simp
    rw [this, node_block_filter n pp hp]
    rfl

/-- C1 counterexample: in a distributed group of two machines with one process
each, the gate that guards metric export and artifact export holds on two
processes, not on exactly one. -/
theorem export_gate_not_unique_across_machines :
    metricWriterCount 2 1 = 2 ∧ artifactWriterCount 2 1 = 2 := by decide

/-- C1 amended: metric export and artifact export are both guarded by the
local-main predicate, which holds on exactly one process per machine; the
number of writers therefore equals the number of machines, and the writer is
unique exactly in single-machine groups, not independent of machine count. -/
theorem export_gate_one_writer_per_machine (numNodes procsPerNode : Nat)
    (hp : 0 < procsPerNode) :
    metricWriterCount numNodes procsPerNode = numNodes ∧
    artifactWriterCount numNodes procsPerNode = numNodes := by
  have h := processes_filter_localMain numNodes procsPerNode hp
  constructor
  · unfold metricWriterCount metricExportGate
    rw [h, List.length_map, List.length_range]
  · unfold artifactWriterCount artifactExportGate
    rw [h, List.length_map, List.length_range]

/-- Witness for the amended C1 on a concrete three-machine group. -/
theorem export_gate_one_writer_per_machine_witness :
    0 < 2 ∧ (metricWriterCount 3 2 = 3 ∧ artifactWriterCount 3 2 = 3) :=
  ⟨by decide, export_gate_one_writer_per_machine 3 2 (by decide)⟩

/-- The two scheduler shapes the code can construct. -/
inductive SchedKind where
  | cosine
  | oneCycle
deriving DecidableEq, Repr

/-- Scheduler selection of lines 162-169: `'COS'` selects cosine annealing;
every other policy name selects the one-cycle scheduler. -/
def selectScheduler (lradj : String) : SchedKind :=
  if lradj = "COS" then SchedKind.cosine else SchedKind.oneCycle

/-- Parser default for `--lradj` (line 98). -/
def default_lradj : String := "type1"

/-- Lines 226-229: `scheduler.step()` runs after a training batch only when
`lradj = 'TST'`. -/
def schedStepsPerBatch (lradj : String) : Nat :=
  if lradj = "TST" then 1 else 0

/-- Lines 264-275: at epoch end `scheduler.step()` runs only in the
`lradj = 'COS'` branch; the remaining non-`'TST'` branch rewrites the
optimizer's rate directly without stepping the scheduler object. -/
def schedStepsAtEpochEnd (lradj : String) : Nat :=
  if lradj ≠ "TST" then (if lradj = "COS" then 1 else 0) else 0

/-- How often the scheduler object is advanced during one epoch of
`nBatches` training batches. -/
def schedStepsInEpoch (lradj : String) (nBatches : Nat) : Nat :=
  nBatches * schedStepsPerBatch lradj + schedStepsAtEpochEnd lradj

/-- C2 counterexample: under the default configuration (`lradj = 'type1'`)
the selected scheduler is the one-cycle scheduler, yet an epoch of five
training batches advances it zero times — it is stepped neither after each
optimizer step nor at epoch end. -/
theorem default_one_cycle_never_stepped :
    selectScheduler default_lradj = SchedKind.oneCycle ∧
    schedStepsInEpoch default_lradj 5 = 0 := by decide

/-- C2 amended: the scheduler is advanced once immediately after every
optimizer step exactly when the policy name is `'TST'`; the `'COS'` policy's
scheduler is advanced once at epoch end; under every other policy name —
including the default `'type1'`, for which the constructed scheduler is
one-cycle — the scheduler object is never advanced. -/
theorem scheduler_step_discipline (lradj : String) (nBatches : Nat) :
    schedStepsInEpoch lradj nBatches =
      (if lradj = "TST" then nBatches else if lradj = "COS" then 1 else 0) ∧
    (selectScheduler lradj = SchedKind.oneCycle ↔ lradj ≠ "COS") := by
  constructor
  · unfold schedStepsInEpoch schedStepsPerBatch schedStepsAtEpochEnd
    by_cases h1 : lradj = "TST"
    · have h2 : lradj ≠ "COS" := by
        rw [h1]
        decide
      simp [h1, h2]
    · by_cases h2 : lradj = "COS" <;> simp [h1, h2]
  · unfold selectScheduler
    by_cases h2 : lradj = "COS" <;> simp [h2]

/-- The run-configuration record (the fields of `args` this development
reasons about), created once from the command line. -/
structure RunConfig where
  learning_rate : ℚ
  lradj : String
  train_epochs : Nat
  label_len : Nat
  pred_len : Nat
  batch_size : Nat
  patience : Nat
  features : String
  pct_start : ℚ
  use_amp : Bool
deriving DecidableEq, Repr

/-- A configuration holding the parser defaults of lines 47-100 for the
fields modelled here (`learning_rate = 0.0001`, `lradj = 'type1'`,
`pct_start = 0.2`). -/
def defaultConfig : RunConfig :=
  ⟨1 / 10000, "type1", 10, 48, 96, 32, 10, "M", 1 / 5, false⟩

/-- The epoch-end learning-rate block of lines 264-275, restricted to its
effect on the run-configuration record: for a policy that is neither `'TST'`
nor `'COS'`, at the end of epoch 0, line 271 overwrites
`args.learning_rate` with the optimizer's current rate; in every other case
the record is untouched. -/
def epochEndConfigUpdate (epoch : Nat) (optimLr : ℚ) (cfg : RunConfig) : RunConfig :=
  if cfg.lradj ≠ "TST" then
    if cfg.lradj = "COS" then cfg
    else if epoch = 0 then { cfg with learning_rate := optimLr } else cfg
  else cfg

/-- C6 counterexample: at the end of epoch 0 under the default configuration,
with the optimizer's current rate at `0.000004` (the one-cycle warmup value
`max_lr / 25` that the constructed scheduler installs), the configuration
record's `learning_rate` field no longer holds the value it was created
with. -/
theorem config_learning_rate_mutated :
    (epochEndConfigUpdate 0 (4 / 1000000) defaultConfig).learning_rate ≠
      defaultConfig.learning_rate := by
  simp only [epochEndConfigUpdate, defaultConfig]
  rw [if_pos (by decide : ("type1" : String) ≠ "TST"),
    if_neg (by decide : ¬("type1" : String) = "COS"), if_pos trivial]
  norm_num

/-- C6 amended: the training loop leaves every configuration field except
`learning_rate` unchanged, and leaves the whole record unchanged whenever the
policy is `'TST'` or `'COS'` or the epoch is not 0; only at the end of epoch 0
and only under the remaining (step-decay) policies is `learning_rate`
overwritten with the optimizer's current rate. -/
theorem config_readonly_except_lr (epoch : Nat) (optimLr : ℚ) (cfg : RunConfig) :
    ((epochEndConfigUpdate epoch optimLr cfg).lradj = cfg.lradj ∧
     (epochEndConfigUpdate epoch optimLr cfg).train_epochs = cfg.train_epochs ∧
     (epochEndConfigUpdate epoch optimLr cfg).label_len = cfg.label_len ∧
     (epochEndConfigUpdate epoch optimLr cfg).pred_len = cfg.pred_len ∧
     (epochEndConfigUpdate epoch optimLr cfg).batch_size = cfg.batch_size ∧
     (epochEndConfigUpdate epoch optimLr cfg).patience = cfg.patience ∧
     (epochEndConfigUpdate epoch optimLr cfg).features = cfg.features ∧
     (epochEndConfigUpdate epoch optimLr cfg).pct_start = cfg.pct_start ∧
     (epochEndConfigUpdate epoch optimLr cfg).use_amp = cfg.use_amp) ∧
    (cfg.lradj = "TST" ∨ cfg.lradj = "COS" ∨ epoch ≠ 0 →
      epochEndConfigUpdate epoch optimLr cfg = cfg) ∧
    (cfg.lradj ≠ "TST" → cfg.lradj ≠ "COS" → epoch = 0 →
      epochEndConfigUpdate epoch optimLr cfg = { cfg with learning_rate := optimLr }) := by
  unfold epochEndConfigUpdate
  by_cases h1 : cfg.lradj = "TST" <;> by_cases h2 : cfg.lradj = "COS" <;>
    by_cases h3 : epoch = 0 <;> simp [h1, h2, h3]

/-- Witness for the amended C6: the record survives a later epoch untouched,
and the epoch-0 update touches only `learning_rate`. -/
theorem config_readonly_except_lr_witness :
    epochEndConfigUpdate 1 (1 / 2) defaultConfig = defaultConfig ∧
    epochEndConfigUpdate 0 (1 / 2) defaultConfig =
      { defaultConfig with learning_rate := 1 / 2 } :=
  ⟨(config_readonly_except_lr 1 (1 / 2) defaultConfig).2.1
      (Or.inr (Or.inr (by decide))),
   (config_readonly_except_lr 0 (1 / 2) defaultConfig).2.2
      (by decide) (by decide) rfl⟩

/-- The three model variants the dispatch recognizes. -/
inductive ModelKind where
  | autoformer
  | dlinear
  | timeLLM
deriving DecidableEq, Repr

/-- Model dispatch of lines 140-147: three recognized names construct a
model; any other name raises `ValueError` before training starts. -/
def selectModel (name : String) : Except String ModelKind :=
  if name = "Autoformer" then Except.ok ModelKind.autoformer
  else if name = "DLinear" then Except.ok ModelKind.dlinear
  else if name = "TimeLLM" then Except.ok ModelKind.timeLLM
  else Except.error ("Model " ++ name ++ " not recognized.")

/-- The configuration phase that runs before the first training step
(lines 140-169): model dispatch, then scheduler selection.  The scheduler
dispatch has no failure branch, so the only configuration error is the model
dispatch's. -/
def configPhase (modelName lradj : String) : Except String (ModelKind × SchedKind) :=
  match selectModel modelName with
  | Except.error msg => Except.error msg
  | Except.ok m => Except.ok (m, selectScheduler lradj)

/-- C7 counterexample: with the recognized model `'TimeLLM'` and the
unrecognized learning-rate-policy name `'bogus'`, the configuration phase
raises no error — training proceeds with the one-cycle scheduler. -/
theorem unrecognized_lradj_no_config_error :
    configPhase "TimeLLM" "bogus" =
      Except.ok (ModelKind.timeLLM, SchedKind.oneCycle) := by rfl

/-- C7 amended: the program fails with a configuration error before training
exactly when the model name is unrecognized; an unrecognized
learning-rate-policy name never causes a configuration error — every name
other than `'COS'` silently selects the one-cycle scheduler. -/
theorem config_error_iff_bad_model (modelName lradj : String) :
    (∃ msg, configPhase modelName lradj = Except.error msg) ↔
      modelName ≠ "Autoformer" ∧ modelName ≠ "DLinear" ∧ modelName ≠ "TimeLLM" := by
  unfold configPhase selectModel
  by_cases h1 : modelName = "Autoformer" <;> by_cases h2 : modelName = "DLinear" <;>
    by_cases h3 : modelName = "TimeLLM" <;> simp [h1, h2, h3]

/-- Outcome of the artifact-export block on the designated process. -/
structure ArtifactExportOutcome where
  checkpointUploaded : Bool
  tempCreated : Bool
  tempRemoved : Bool
  exceptionRaised : Bool
deriving DecidableEq, Repr

/-- Artifact export of lines 280-302: the filtered checkpoint is handed to
the sink first (line 290); then, if the training data carries a fitted
scaler, a temporary file is created with `delete=False` (line 298), the
scaler is pickled into it and uploaded, and `os.remove` runs only after the
`with` block completes normally (line 301) — an exception raised by
`pickle.dump` or `mlflow.log_artifact` propagates out of the `with` block
and skips the removal. -/
def artifactExportRun (hasScaler dumpOk uploadOk : Bool) : ArtifactExportOutcome :=
  if hasScaler then
    if dumpOk then
      if uploadOk then ⟨true, true, true, false⟩
      else ⟨true, true, false, true⟩
    else ⟨true, true, false, true⟩
  else ⟨true, false, false, false⟩

/-- C8: evaluating the export at the failing inputs — scaler present and
either the upload or the pickling raises — the checkpoint artifact was
already uploaded, but the temporary scaler file is left on disk (it is not
deleted on the failure path) and the exception propagates out of the export
block. -/
theorem scaler_failure_leaves_temp_file :
    artifactExportRun true true false =
      ⟨true, true, false, true⟩ ∧
    artifactExportRun true false true =
      ⟨true, true, false, true⟩ := by decide

/-- Modelled from the spec: `adjust_learning_rate` (defined in
`utils/tools.py`, which is not among the sources here) for the step-decay
family — a per-epoch policy halving the rate every epoch, all of whose
values are derived from the configured base rate it is handed: called with
1-based epoch index `k`, it sets the optimizer's rate to
`base * (1/2)^(k-1)`. -/
def stepDecayRate (base : ℚ) (k : Nat) : ℚ := base * (1 / 2) ^ (k - 1)

/-- One epoch-end pass of lines 269-273 for a step-decay policy (`lradj`
neither `'TST'` nor `'COS'`): at the end of epoch 0 the configured rate is
overwritten with the optimizer's current rate (the base-rate capture), then
`adjust_learning_rate` is invoked with the 1-based epoch index.  Returns the
updated pair (configured rate, realized optimizer rate). -/
def stepDecayEpochEnd (epoch : Nat) (optimLr cfgLr : ℚ) : ℚ × ℚ :=
  let cfgLr' := if epoch = 0 then optimLr else cfgLr
  (cfgLr', stepDecayRate cfgLr' (epoch + 1))

/-- The pair (configured rate, realized optimizer rate) after the
end-of-epoch-`e` processing of a step-decay run whose original configured
rate is `cfg0` and whose optimizer rate at the end of epoch 0 is `r0` (for
epochs after 0 the rate entering the epoch end is the previously realized
rate, which the update does not read). -/
def stepDecayRun (cfg0 r0 : ℚ) : Nat → ℚ × ℚ
  | 0 => stepDecayEpochEnd 0 r0 cfg0
  | e + 1 =>
    stepDecayEpochEnd (e + 1) (stepDecayRun cfg0 r0 e).2 (stepDecayRun cfg0 r0 e).1

/-- C9: in a step-decay run the base rate captured at the end of epoch 0 is
the optimizer's actual rate `r0`, the realized rate after every epoch `e`
equals `r0 * (1/2)^e` — a function of `r0` alone — and two runs with
different original configured rates but the same `r0` realize identical
rates at every epoch. -/
theorem step_decay_base_rate_capture (cfg0 cfg0' r0 : ℚ) (e : Nat) :
    (stepDecayRun cfg0 r0 e).2 = r0 * (1 / 2) ^ e ∧
    (stepDecayRun cfg0 r0 e).2 = (stepDecayRun cfg0' r0 e).2 := by
  have key : ∀ c : ℚ, ∀ n : Nat, stepDecayRun c r0 n = (r0, r0 * (1 / 2) ^ n) := by
    intro c n
    induction n with
    | zero =>
      unfold stepDecayRun stepDecayEpochEnd stepDecayRate
      norm_num
    | succ k ih =>
      unfold stepDecayRun
      rw [ih]
      unfold stepDecayEpochEnd stepDecayRate
      norm_num
  rw [key cfg0 e, key cfg0' e]
  exact ⟨rfl, rfl⟩

end RunMain
